import Mathlib

/-!
Verification of the photooxide cache store (`src/db`) and filesystem
operation layer (`src/photofs`) against the natural-language specification.

The SQLite-backed store is embedded as a pure state (`PhotoDbState`): the
`AlbumsAndMediaItems` table as a list of rows in rowid (insertion) order,
the `MediaItemsInAlbum` table as a list of pairs, and the single-row
`NextInode` counter as a `Nat`.  `INSERT OR REPLACE` on the `google_id`
primary key deletes the old row and appends the new one (SQLite gives the
replacement a fresh, maximal rowid), which the embedding mirrors by
filtering and appending.  Queries with `ORDER BY google_id` sort; `query_row`
takes the first row in scan (rowid) order, which `List.find?` mirrors.
Timestamps travel as unix seconds (`Int`), exactly what the code stores.
-/

/-- The `MediaTypes` enum of `src/domain.rs`. -/
inductive MediaTypes where
  | album
  | mediaItem
deriving DecidableEq, Repr

/-- One row of the `AlbumsAndMediaItems` table: the `PhotoDbMediaItemAlbum`
record of `src/domain.rs` (`google_id`, `type`, `name`, `last_remote_check`
in unix seconds, `inode`). -/
structure Entity where
  google_id : String
  media_type : MediaTypes
  name : String
  last_remote_check : Int
  inode : Nat
deriving DecidableEq, Repr

/-- The persistent store of `src/db/mod.rs` and `src/db/inode_db.rs`:
entity rows in rowid order, membership rows, and the `NextInode` counter. -/
structure PhotoDbState where
  entities : List Entity
  memberships : List (String × String)
  nextInode : Nat
deriving DecidableEq, Repr

/-- A freshly created store: `ensure_schema` makes empty tables and
`ensure_schema_next_inode` seeds the counter row at 100
(`INSERT OR IGNORE ... VALUES (100)`). -/
def freshDb : PhotoDbState := ⟨[], [], 100⟩

/-- `SqliteNextInodeDb::get_and_update_inode`: `UPDATE next_inode SET
inode = inode + 1` then `SELECT inode`, so it increments and returns the
new value. -/
def get_and_update_inode (s : PhotoDbState) : Nat × PhotoDbState :=
  (s.nextInode + 1, { s with nextInode := s.nextInode + 1 })

/-- `SqliteDb::upsert_x`: `INSERT OR REPLACE INTO AlbumsAndMediaItems`
keyed on the `google_id` primary key. -/
def upsert_x (id : String) (media_type : MediaTypes) (name : String) (inode : Nat)
    (last_modified_time : Int) (s : PhotoDbState) : PhotoDbState :=
  { s with entities :=
      s.entities.filter (fun e => e.google_id != id)
        ++ [⟨id, media_type, name, last_modified_time, inode⟩] }

/-- `SqliteDb::upsert_media_item`: allocates an inode unconditionally, then
upserts the row; returns the freshly allocated inode. -/
def upsert_media_item (id name : String) (last_modified_time : Int)
    (s : PhotoDbState) : Nat × PhotoDbState :=
  let r := get_and_update_inode s
  (r.1, upsert_x id MediaTypes.mediaItem name r.1 last_modified_time r.2)

/-- `SqliteDb::upsert_album`: same shape as `upsert_media_item`. -/
def upsert_album (id name : String) (last_modified_time : Int)
    (s : PhotoDbState) : Nat × PhotoDbState :=
  let r := get_and_update_inode s
  (r.1, upsert_x id MediaTypes.album name r.1 last_modified_time r.2)

/-- `SqliteDb::exists`: `SELECT 1 FROM AlbumsAndMediaItems WHERE google_id = ?`. -/
def existsId (id : String) (s : PhotoDbState) : Bool :=
  s.entities.any (fun e => e.google_id == id)

/-- Errors of `src/db/error.rs`, collapsed to the one case the claims need
(an SQL failure such as a foreign-key violation). -/
inductive DbError where
  | sqlError
deriving DecidableEq, Repr

/-- `SqliteDb::upsert_media_item_in_album`: `INSERT OR REPLACE INTO
MediaItemsInAlbum`; both columns are foreign keys into
`AlbumsAndMediaItems (google_id)`, so the insert fails unless both sides
already have an entity row (the repository's own test
`sqlitedb_upsert_media_item_in_album` asserts exactly this). -/
def upsert_media_item_in_album (album_id media_item_id : String)
    (s : PhotoDbState) : Except DbError PhotoDbState :=
  if existsId album_id s && existsId media_item_id s then
    Except.ok { s with memberships :=
      if (album_id, media_item_id) ∈ s.memberships then s.memberships
      else s.memberships ++ [(album_id, media_item_id)] }
  else
    Except.error DbError.sqlError

/-- `SqliteDb::item_by_inode`: `query_row` on `WHERE inode = ?`, first row
in scan order. -/
def item_by_inode (inode : Nat) (s : PhotoDbState) : Option Entity :=
  s.entities.find? (fun e => e.inode == inode)

/-- `SqliteDb::album_by_inode`: `item_by_inode` filtered to albums. -/
def album_by_inode (inode : Nat) (s : PhotoDbState) : Option Entity :=
  match item_by_inode inode s with
  | none => none
  | some item => if item.media_type = MediaTypes.album then some item else none

/-- `SqliteDb::media_item_by_inode`: `item_by_inode` filtered to media items. -/
def media_item_by_inode (inode : Nat) (s : PhotoDbState) : Option Entity :=
  match item_by_inode inode s with
  | none => none
  | some item => if item.media_type = MediaTypes.mediaItem then some item else none

/-- `SqliteDb::album_by_name`: `query_row` on `type = 'album' AND name = ?`. -/
def album_by_name (name : String) (s : PhotoDbState) : Option Entity :=
  s.entities.find? (fun e => e.media_type = MediaTypes.album && e.name == name)

/-- `SqliteDb::media_item_by_name`: `query_row` on
`type = 'media_item' AND name = ?`. -/
def media_item_by_name (name : String) (s : PhotoDbState) : Option Entity :=
  s.entities.find? (fun e => e.media_type = MediaTypes.mediaItem && e.name == name)

/-- Sorting used by every listing query (`ORDER BY google_id`).  All
`google_id`s in the table are distinct (primary key), so the sorted list is
the unique ascending-by-`google_id` permutation; insertion sort computes it. -/
def sortByGid (l : List Entity) : List Entity :=
  List.insertionSort (fun a b => a.google_id ≤ b.google_id) l

/-- `SqliteDb::albums`: all rows with `type = 'album'`, `ORDER BY google_id`. -/
def albums (s : PhotoDbState) : List Entity :=
  sortByGid (s.entities.filter (fun e => e.media_type = MediaTypes.album))

/-- `SqliteDb::media_items`: all rows with `type = 'media_item'`,
`ORDER BY google_id`. -/
def media_items (s : PhotoDbState) : List Entity :=
  sortByGid (s.entities.filter (fun e => e.media_type = MediaTypes.mediaItem))

/-- `SqliteDb::media_items_in_album`: joins media-item rows against the
membership table for the album whose `google_id` the scalar subquery
`SELECT google_id FROM AlbumsAndMediaItems WHERE inode = ?` resolves (first
row in scan order; an empty subquery result matches no membership row),
`ORDER BY google_id`. -/
def media_items_in_album (inode : Nat) (s : PhotoDbState) : List Entity :=
  match s.entities.find? (fun e => e.inode == inode) with
  | none => []
  | some a =>
    sortByGid (s.entities.filter (fun e =>
      e.media_type = MediaTypes.mediaItem
        && decide ((a.google_id, e.google_id) ∈ s.memberships)))

/-- `SqliteDb::media_items_in_album_length`. -/
def media_items_in_album_length (inode : Nat) (s : PhotoDbState) : Nat :=
  (media_items_in_album inode s).length

/-- SQL `MIN` aggregation over a column: `NULL` (none) on an empty row set. -/
def minFold : List Int → Option Int
  | [] => none
  | t :: ts =>
    match minFold ts with
    | none => some t
    | some m => some (min t m)

/-- `SqliteDb::last_updated_x`: `SELECT MIN(last_remote_check) ... WHERE
type = ?`, with `row_to_option_datetime` turning the `NULL` of an empty set
into `None`. -/
def last_updated_x (media_type : MediaTypes) (s : PhotoDbState) : Option Int :=
  minFold ((s.entities.filter (fun e => e.media_type = media_type)).map
    (fun e => e.last_remote_check))

/-- `SqliteDb::last_updated_media`. -/
def last_updated_media (s : PhotoDbState) : Option Int :=
  last_updated_x MediaTypes.mediaItem s

/-- `SqliteDb::last_updated_album`. -/
def last_updated_album (s : PhotoDbState) : Option Int :=
  last_updated_x MediaTypes.album s

/-!
The filesystem operation layer of `src/photofs/mod.rs` and
`src/photofs/utils.rs`.  File content is a byte list; the remote library
client (`RemotePhotoLibData`) is an association from `google_id` to bytes,
exactly the shape of the repository's own `TestRemotePhotoLib` double.
-/

/-- The two `fuse::FileType`s the layer produces. -/
inductive FileType where
  | directory
  | regularFile
deriving DecidableEq, Repr

/-- Every fault the layer reports collapses to
`FuseError::FunctionNotImplemented` (`src/rust_filesystem/error.rs`). -/
inductive FuseError where
  | functionNotImplemented
deriving DecidableEq, Repr

/-- The fields of `make_atr` the claims touch (`ino`, `size`, `kind`). -/
structure AttrResponse where
  ino : Nat
  size : Nat
  kind : FileType
deriving DecidableEq, Repr

/-- `ReadFhEntry`: the inode and buffered bytes of one open file handle. -/
structure ReadFhEntry where
  inode : Nat
  data : List Nat
deriving DecidableEq, Repr

/-- A materialized directory entry `(u64, fuse::FileType, String)`. -/
abbrev DirEntry := Nat × FileType × String

/-- `ReadDirFhEntry`: the inode and materialized entries of one open
directory handle. -/
structure ReadDirFhEntry where
  inode : Nat
  entries : List DirEntry
deriving DecidableEq, Repr

/-- The fixed inode of the filesystem root (`fuse::FUSE_ROOT_ID`). -/
def FIXED_INODE_ROOT : Nat := 1
/-- The fixed inode of the `albums/` directory. -/
def FIXED_INODE_ALBUMS : Nat := 2
/-- The fixed inode of the `media/` directory. -/
def FIXED_INODE_MEDIA : Nat := 3
/-- The fixed inode of the diagnostic file `hello.txt`. -/
def FIXED_INODE_HELLO_WORLD : Nat := 4

/-- The 13 bytes of `HELLO_TXT_CONTENT`, `b"Hello World!\n"`. -/
def HELLO_TXT_CONTENT : List Nat :=
  [72, 101, 108, 108, 111, 32, 87, 111, 114, 108, 100, 33, 10]

/-- The constant placeholder size reported for unopened media items. -/
def DEFAULT_MEDIA_ITEM_SIZE : Nat := 1024

/-- The probing loop of `OpenFileHandles::open`: starting from `fh`, step
upward while the key is taken, giving up (unreachably, for large enough
fuel) after `fuel` steps. -/
def probe (keys : List Nat) : Nat → Nat → Nat
  | fh, 0 => fh
  | fh, fuel + 1 => if fh ∈ keys then probe keys (fh + 1) fuel else fh

/-- The first handle number the probing loop accepts when started at 0.
`keys.length + 1` probes always reach a free slot. -/
def firstFree (keys : List Nat) : Nat :=
  probe keys 0 (keys.length + 1)

/-- `OpenFileHandles<X>` of `src/photofs/utils.rs`: a map from handle
number to handle state, embedded as an association list (newest first; the
operations only consult keys, so order is unobservable). -/
structure OpenFileHandles (X : Type) where
  fhs : List (Nat × X)
deriving DecidableEq, Repr

/-- `OpenFileHandles::open`: probe from 0 for an unused handle number,
insert, and return the number. -/
def OpenFileHandles.open_fh {X : Type} (t : OpenFileHandles X) (x : X) :
    Nat × OpenFileHandles X :=
  let fh := firstFree (t.fhs.map Prod.fst)
  (fh, ⟨(fh, x) :: t.fhs⟩)

/-- `OpenFileHandles::get`. -/
def OpenFileHandles.get_fh {X : Type} (t : OpenFileHandles X) (fh : Nat) : Option X :=
  (t.fhs.find? (fun p => p.1 == fh)).map Prod.snd

/-- `OpenFileHandles::remove`: returns the removed state, if any, and the
table without that key. -/
def OpenFileHandles.remove_fh {X : Type} (t : OpenFileHandles X) (fh : Nat) :
    Option X × OpenFileHandles X :=
  match t.fhs.find? (fun p => p.1 == fh) with
  | none => (none, t)
  | some p => (some p.2, ⟨t.fhs.filter (fun q => q.1 != fh)⟩)

/-- `PhotoFs`: the read-only store, the remote client (association from
`google_id` to content bytes), and the two handle tables. -/
structure FsState where
  db : PhotoDbState
  remote : List (String × List Nat)
  open_files : OpenFileHandles ReadFhEntry
  open_dirs : OpenFileHandles ReadDirFhEntry
deriving DecidableEq, Repr

/-- A `PhotoFs` over the given store with no remote content and no open
handles. -/
def mkFs (s : PhotoDbState) : FsState := ⟨s, [], ⟨[]⟩, ⟨[]⟩⟩

/-- A `PhotoFs` over a freshly created store. -/
def freshFs : FsState := mkFs freshDb

/-- The `Filter` argument of the filtered `media_item_by_name` overload the
lookup path passes (`Filter::NoFilter` / `Filter::ByAlbum`).  Named
`DbFilter` here because Lean's library already claims `Filter`. -/
inductive DbFilter where
  | noFilter
  | byAlbum (album_google_id : String)
deriving DecidableEq, Repr

/-- Modelled from the spec: the `Filter`-taking overload of
`media_item_by_name` that `PhotoFs::lookup_media` calls is absent from the
copy of `src/db` under verification (only its caller in
`src/photofs/mod.rs` is present).  Per the spec, "For album children,
lookup is scoped to that album's membership (an item existing in the global
media list does not satisfy lookup under an unrelated album)":
`byAlbum` restricts the by-name search to media items whose `google_id`
appears as the right side of a membership row for that album. -/
def media_item_by_name_filtered (name : String) (filter : DbFilter)
    (s : PhotoDbState) : Option Entity :=
  match filter with
  | DbFilter.noFilter => media_item_by_name name s
  | DbFilter.byAlbum gid =>
    s.entities.find? (fun e =>
      e.media_type = MediaTypes.mediaItem && e.name == name
        && decide ((gid, e.google_id) ∈ s.memberships))

/-- `PhotoFs::lookup_root`. -/
def lookup_root (name : String) : Except FuseError AttrResponse :=
  if name = "hello.txt" then
    Except.ok ⟨FIXED_INODE_HELLO_WORLD, HELLO_TXT_CONTENT.length, FileType.regularFile⟩
  else if name = "albums" then
    Except.ok ⟨FIXED_INODE_ALBUMS, 0, FileType.directory⟩
  else if name = "media" then
    Except.ok ⟨FIXED_INODE_MEDIA, 0, FileType.directory⟩
  else
    Except.error FuseError.functionNotImplemented

/-- `PhotoFs::lookup_albums`: resolve an album by name; its reported size
is the recomputed membership count. -/
def lookup_albums (name : String) (s : PhotoDbState) : Except FuseError AttrResponse :=
  match album_by_name name s with
  | some album =>
    Except.ok ⟨album.inode, media_items_in_album_length album.inode s, FileType.directory⟩
  | none => Except.error FuseError.functionNotImplemented

/-- `PhotoFs::lookup_media`: resolve a media item by name under the given
filter; media items report the constant placeholder size. -/
def lookup_media (name : String) (filter : DbFilter) (s : PhotoDbState) :
    Except FuseError AttrResponse :=
  match media_item_by_name_filtered name filter s with
  | some media_item =>
    Except.ok ⟨media_item.inode, DEFAULT_MEDIA_ITEM_SIZE, FileType.regularFile⟩
  | none => Except.error FuseError.functionNotImplemented

/-- `PhotoFs::lookup`: dispatch on the parent inode; under an album
directory the media lookup is scoped with `Filter::ByAlbum`. -/
def fs_lookup (fs : FsState) (parent : Nat) (name : String) :
    Except FuseError AttrResponse :=
  if parent = FIXED_INODE_ROOT then lookup_root name
  else if parent = FIXED_INODE_ALBUMS then lookup_albums name fs.db
  else if parent = FIXED_INODE_MEDIA then lookup_media name DbFilter.noFilter fs.db
  else
    match album_by_inode parent fs.db with
    | some album => lookup_media name (DbFilter.byAlbum album.google_id) fs.db
    | none => Except.error FuseError.functionNotImplemented

/-- The content-resolution step of `PhotoFs::open`: the diagnostic file
serves its fixed bytes; a media item is resolved in the store and its
content fetched from the remote client; any other inode, or a remote miss,
is an error. -/
def resolve_content (fs : FsState) (ino : Nat) : Except FuseError (List Nat) :=
  if ino = FIXED_INODE_HELLO_WORLD then Except.ok HELLO_TXT_CONTENT
  else
    match media_item_by_inode ino fs.db with
    | none => Except.error FuseError.functionNotImplemented
    | some media_item =>
      match fs.remote.find? (fun p => p.1 == media_item.google_id) with
      | none => Except.error FuseError.functionNotImplemented
      | some p => Except.ok p.2

/-- `PhotoFs::open`: resolve the content, then store it in a fresh
open-file handle and return the handle number. -/
def fs_open (fs : FsState) (ino : Nat) : Except FuseError (Nat × FsState) :=
  match resolve_content fs ino with
  | Except.error e => Except.error e
  | Except.ok file_data =>
    let r := fs.open_files.open_fh ⟨ino, file_data⟩
    Except.ok (r.1, { fs with open_files := r.2 })

/-- `PhotoFs::read`: unknown handle or an inode mismatch is an error; an
offset at or past the buffer end returns empty bytes; otherwise the slice
`[offset, min(offset+size, len))`. -/
def fs_read (fs : FsState) (ino fh offset size : Nat) :
    Except FuseError (List Nat) :=
  match fs.open_files.get_fh fh with
  | none => Except.error FuseError.functionNotImplemented
  | some entry =>
    if entry.inode ≠ ino then Except.error FuseError.functionNotImplemented
    else if entry.data.length ≤ offset then Except.ok []
    else
      Except.ok ((entry.data.drop offset).take (min (offset + size) entry.data.length - offset))

/-- `PhotoFs::release`: removing an unknown handle is an error. -/
def fs_release (fs : FsState) (fh : Nat) : Except FuseError FsState :=
  match fs.open_files.remove_fh fh with
  | (none, _) => Except.error FuseError.functionNotImplemented
  | (some _, t) => Except.ok { fs with open_files := t }

/-- The first-seen-name filter of `PhotoFs::opendir_entries`: an entity
whose name is already in the seen set is dropped (with a warning in the
source), otherwise it becomes an entry and its name enters the set. -/
def dedupeEntries (kind : FileType) : List Entity → List String → List DirEntry
  | [], _ => []
  | e :: rest, seen =>
    if e.name ∈ seen then dedupeEntries kind rest seen
    else (e.inode, kind, e.name) :: dedupeEntries kind rest (e.name :: seen)

/-- `PhotoFs::opendir_entries`: "." first, then the fixed children for the
root, or ".." plus the deduplicated store listing for `albums/`, `media/`
and album directories.  The final branch is unreachable from `fs_opendir`
(the source aborts there); the embedding returns just the "." entry. -/
def opendir_entries (ino : Nat) (album_for_inode : Option Entity)
    (s : PhotoDbState) : List DirEntry :=
  if ino = FIXED_INODE_ROOT then
    [(ino, FileType.directory, "."),
     (FIXED_INODE_ALBUMS, FileType.directory, "albums"),
     (FIXED_INODE_MEDIA, FileType.directory, "media"),
     (FIXED_INODE_HELLO_WORLD, FileType.regularFile, "hello.txt")]
  else if ino = FIXED_INODE_ALBUMS then
    (ino, FileType.directory, ".") :: (FIXED_INODE_ROOT, FileType.directory, "..")
      :: dedupeEntries FileType.directory (albums s) []
  else if ino = FIXED_INODE_MEDIA then
    (ino, FileType.directory, ".") :: (FIXED_INODE_ROOT, FileType.directory, "..")
      :: dedupeEntries FileType.regularFile (media_items s) []
  else if album_for_inode.isSome then
    (ino, FileType.directory, ".") :: (FIXED_INODE_ALBUMS, FileType.directory, "..")
      :: dedupeEntries FileType.regularFile (media_items_in_album ino s) []
  else
    [(ino, FileType.directory, ".")]

/-- The album-resolution guard of `PhotoFs::opendir`: the three fixed
directories pass with no album; any other inode must resolve to an album. -/
def opendir_album_check (fs : FsState) (ino : Nat) : Except FuseError (Option Entity) :=
  if ino = FIXED_INODE_ROOT ∨ ino = FIXED_INODE_MEDIA ∨ ino = FIXED_INODE_ALBUMS then
    Except.ok none
  else
    match album_by_inode ino fs.db with
    | none => Except.error FuseError.functionNotImplemented
    | some album => Except.ok (some album)

/-- `PhotoFs::opendir`: a non-fixed inode must resolve to an album;
children are materialized eagerly into a fresh directory handle. -/
def fs_opendir (fs : FsState) (ino : Nat) : Except FuseError (Nat × FsState) :=
  match opendir_album_check fs ino with
  | Except.error e => Except.error e
  | Except.ok aopt =>
    let entries := opendir_entries ino aopt fs.db
    let r := fs.open_dirs.open_fh ⟨ino, entries⟩
    Except.ok (r.1, { fs with open_dirs := r.2 })

/-- One entry of a `readdir` reply: the child's own inode, the offset value
the transport may resume with, its kind and its name. -/
structure RdEntry where
  ino : Nat
  offset : Nat
  kind : FileType
  name : String
deriving DecidableEq, Repr

/-- `PhotoFs::readdir`: unknown handle or inode mismatch is an error;
otherwise skip `to_skip` entries (`offset` when 0, else `offset + 1`) of
the enumerated materialized list and tag each remaining entry with offset
`index + 1`. -/
def fs_readdir (fs : FsState) (ino fh offset : Nat) :
    Except FuseError (List RdEntry) :=
  match fs.open_dirs.get_fh fh with
  | none => Except.error FuseError.functionNotImplemented
  | some entry =>
    if entry.inode ≠ ino then Except.error FuseError.functionNotImplemented
    else
      let to_skip := if offset = 0 then 0 else offset + 1
      Except.ok ((entry.entries.enum.drop to_skip).map
        (fun p => ⟨p.2.1, p.1 + 1, p.2.2.1, p.2.2.2⟩))

/-- `PhotoFs::releasedir`: removing an unknown handle is an error. -/
def fs_releasedir (fs : FsState) (fh : Nat) : Except FuseError FsState :=
  match fs.open_dirs.remove_fh fh with
  | (none, _) => Except.error FuseError.functionNotImplemented
  | (some _, t) => Except.ok { fs with open_dirs := t }

/-- True exactly on `Except.ok`. -/
def exceptOk {ε α : Type} : Except ε α → Bool
  | Except.ok _ => true
  | Except.error _ => false

/-- The handle number of an `open`/`opendir` reply, if it succeeded. -/
def fhOf {ε : Type} : Except ε (Nat × FsState) → Option Nat
  | Except.ok p => some p.1
  | Except.error _ => none

/-!
Handle-number allocation: the probing loop visits candidates upward from
its start; with `keys.length + 1` probes it always lands on an unused
number, and everything below the result is in use.
-/

/-- Everything the probing loop passed over was in use. -/
theorem probe_minimal (keys : List Nat) (fuel : Nat) : ∀ fh m : Nat,
    fh ≤ m → m < probe keys fh fuel → m ∈ keys := by
  induction fuel with
  | zero =>
    intro fh m hle hlt
    simp only [probe] at hlt
    omega
  | succ fuel ih =>
    intro fh m hle hlt
    simp only [probe] at hlt
    by_cases hm : fh ∈ keys
    · rw [if_pos hm] at hlt
      rcases Nat.eq_or_lt_of_le hle with rfl | hlt'
      · exact hm
      · exact ih (fh + 1) m hlt' hlt
    · rw [if_neg hm] at hlt
      omega

/-- Raising the probe point can only shrink the set of keys at or above it. -/
theorem filter_ge_length_mono (fh : Nat) (keys : List Nat) :
    (keys.filter (fun k => decide (fh + 1 ≤ k))).length
      ≤ (keys.filter (fun k => decide (fh ≤ k))).length := by
  induction keys with
  | nil => simp
  | cons k ks ih =>
    by_cases h1 : fh + 1 ≤ k
    · have h0 : fh ≤ k := by omega
      simp [List.filter_cons, h1, h0]
      omega
    · by_cases h0 : fh ≤ k
      · simp [List.filter_cons, h1, h0]
        omega
      · simp [List.filter_cons, h1, h0]
        omega

/-- Stepping past a key strictly shrinks the set of keys at or above the
probe point. -/
theorem filter_ge_length_strict (fh : Nat) (keys : List Nat) (h : fh ∈ keys) :
    (keys.filter (fun k => decide (fh + 1 ≤ k))).length
      < (keys.filter (fun k => decide (fh ≤ k))).length := by
  induction keys with
  | nil => cases h
  | cons k ks ih =>
    rcases List.mem_cons.mp h with rfl | hks
    · have h1 : ¬ (fh + 1 ≤ fh) := by omega
      have h0 : fh ≤ fh := le_refl fh
      simp [List.filter_cons, h1, h0]
      have := filter_ge_length_mono fh ks
      omega
    · have := ih hks
      by_cases h1 : fh + 1 ≤ k
      · have h0 : fh ≤ k := by omega
        simp [List.filter_cons, h1, h0]
        omega
      · by_cases h0 : fh ≤ k
        · simp [List.filter_cons, h1, h0]
          omega
        · simp [List.filter_cons, h1, h0]
          omega

/-- With enough fuel the probing loop returns an unused number. -/
theorem probe_not_mem (fuel : Nat) : ∀ (keys : List Nat) (fh : Nat),
    (keys.filter (fun k => decide (fh ≤ k))).length < fuel →
    probe keys fh fuel ∉ keys := by
  induction fuel with
  | zero => intro keys fh h; omega
  | succ fuel ih =>
    intro keys fh h
    simp only [probe]
    by_cases hm : fh ∈ keys
    · rw [if_pos hm]
      apply ih
      have := filter_ge_length_strict fh keys hm
      omega
    · rw [if_neg hm]
      exact hm

/-- The allocated handle number is unused. -/
theorem firstFree_not_mem (keys : List Nat) : firstFree keys ∉ keys := by
  apply probe_not_mem
  have h0 : keys.filter (fun k => decide (0 ≤ k)) = keys := by
    simp
  rw [h0]
  omega

/-- The allocated handle number is the smallest unused one. -/
theorem firstFree_minimal (keys : List Nat) (m : Nat) (h : m < firstFree keys) :
    m ∈ keys :=
  probe_minimal keys (keys.length + 1) 0 m (Nat.zero_le m) h

/-- Definition following the spec's words, for comparison with the code:
handle numbers "allocated by linear probing from a base value (the owning
inode) upward until an unused slot is found". -/
def probeFromInodeBase (keys : List Nat) (ino : Nat) : Nat :=
  probe keys ino (keys.length + 1)

/-- C7 counterexample: `opendir` of the root directory (inode 1) on a fresh
filesystem returns handle 0, while probing upward from a base equal to the
owning inode would return 1 (every slot is free); the claimed base is wrong. -/
theorem opendir_handle_base_zero_not_inode :
    fhOf (fs_opendir freshFs FIXED_INODE_ROOT) = some 0 ∧
    probeFromInodeBase (freshFs.open_dirs.fhs.map Prod.fst) FIXED_INODE_ROOT = 1 ∧
    fhOf (fs_opendir freshFs FIXED_INODE_ROOT) ≠
      some (probeFromInodeBase (freshFs.open_dirs.fhs.map Prod.fst) FIXED_INODE_ROOT) := by
  refine ⟨rfl, rfl, ?_⟩
  decide

/-- C7 (amended): every `open` and `opendir` finds its handle number by
linear probing upward from 0 (not from the owning inode) until an unused
slot is found, so the returned handle is distinct from every handle
currently open in the same table and everything below it is in use. -/
theorem handle_alloc_probes_from_zero (fs : FsState) (ino fh : Nat) (fs' : FsState) :
    (fs_open fs ino = Except.ok (fh, fs') →
       fh ∉ fs.open_files.fhs.map Prod.fst ∧
       ∀ m, m < fh → m ∈ fs.open_files.fhs.map Prod.fst) ∧
    (fs_opendir fs ino = Except.ok (fh, fs') →
       fh ∉ fs.open_dirs.fhs.map Prod.fst ∧
       ∀ m, m < fh → m ∈ fs.open_dirs.fhs.map Prod.fst) := by
  constructor
  · intro h
    unfold fs_open at h
    cases hc : resolve_content fs ino with
    | error e =>
      rw [hc] at h
      cases h
    | ok file_data =>
      rw [hc] at h
      simp only [Except.ok.injEq, Prod.mk.injEq] at h
      obtain ⟨h1, h2⟩ := h
      subst h1
      exact ⟨firstFree_not_mem _, fun m hm => firstFree_minimal _ m hm⟩
  · intro h
    unfold fs_opendir at h
    cases hc : opendir_album_check fs ino with
    | error e =>
      rw [hc] at h
      cases h
    | ok aopt =>
      rw [hc] at h
      simp only [Except.ok.injEq, Prod.mk.injEq] at h
      obtain ⟨h1, h2⟩ := h
      subst h1
      exact ⟨firstFree_not_mem _, fun m hm => firstFree_minimal _ m hm⟩

/-- C10: in each handle table, allocation returns the smallest number from
0 upward not currently bound to a live handle; consequently a number freed
by `remove` is immediately reused by the next allocation (here: handle 0 is
allocated, removed, and allocated again for a different payload), unlike
stable ids, which are never reused. -/
theorem open_fh_smallest_unused_and_reused (X : Type) (t : OpenFileHandles X) (x : X) :
    ((t.open_fh x).1 ∉ t.fhs.map Prod.fst ∧
       ∀ m, m < (t.open_fh x).1 → m ∈ t.fhs.map Prod.fst) ∧
    ((OpenFileHandles.open_fh ⟨[]⟩ (7 : Nat)).1 = 0 ∧
       (((OpenFileHandles.open_fh ⟨[]⟩ (7 : Nat)).2.remove_fh
           (OpenFileHandles.open_fh ⟨[]⟩ (7 : Nat)).1).2.open_fh (9 : Nat)).1
         = (OpenFileHandles.open_fh ⟨[]⟩ (7 : Nat)).1) := by
  refine ⟨⟨firstFree_not_mem _, fun m hm => firstFree_minimal _ m hm⟩, ?_, ?_⟩ <;> decide

/-- C1: the code allocates and returns a fresh stable id on every upsert,
even for an already-known `remote_id`: the second upsert of `"GoogleId1"`
updates the stored name in place but returns 102, not the 101 the first
call returned (the repository's own test marks this `TODO: should be 101`). -/
theorem upsert_known_id_returns_new_inode :
    (upsert_media_item "GoogleId1" "Title 1" 0 freshDb).1 = 101 ∧
    (upsert_media_item "GoogleId1" "Title 1 new title" 0
        (upsert_media_item "GoogleId1" "Title 1" 0 freshDb).2).1 = 102 ∧
    (102 : Nat) ≠ 101 ∧
    ((upsert_media_item "GoogleId1" "Title 1 new title" 0
        (upsert_media_item "GoogleId1" "Title 1" 0 freshDb).2).2.entities.map
      (fun e => (e.google_id, e.name, e.inode)))
      = [("GoogleId1", "Title 1 new title", 102)] := by
  refine ⟨rfl, rfl, by decide, by decide⟩

/-!
Stable-id allocation across arbitrary upsert sequences (the Synchronizer's
write path): every allocation bumps the `NextInode` counter by one and
returns the new value.
-/

/-- One `upsert_entity` call: either `upsert_media_item` or `upsert_album`. -/
inductive EntityOp where
  | media (id name : String) (ts : Int)
  | album (id name : String) (ts : Int)

/-- Run one upsert, returning the stable id it reports and the new state. -/
def applyEntityOp : EntityOp → PhotoDbState → Nat × PhotoDbState
  | EntityOp.media id name ts, s => upsert_media_item id name ts s
  | EntityOp.album id name ts, s => upsert_album id name ts s

/-- Run a sequence of upserts, collecting the returned stable ids in call
order. -/
def runUpserts : List EntityOp → PhotoDbState → PhotoDbState × List Nat
  | [], s => (s, [])
  | op :: ops, s =>
    let r := applyEntityOp op s
    let rest := runUpserts ops r.2
    (rest.1, r.1 :: rest.2)

/-- Every upsert returns `nextInode + 1` and leaves the counter there. -/
theorem applyEntityOp_counter (op : EntityOp) (s : PhotoDbState) :
    (applyEntityOp op s).1 = s.nextInode + 1 ∧
    (applyEntityOp op s).2.nextInode = s.nextInode + 1 := by
  cases op <;> exact ⟨rfl, rfl⟩

/-- Every upsert keeps all stored inodes at or below the counter. -/
theorem applyEntityOp_inode_bound (op : EntityOp) (s : PhotoDbState)
    (h : ∀ e ∈ s.entities, e.inode ≤ s.nextInode) :
    ∀ e ∈ (applyEntityOp op s).2.entities, e.inode ≤ (applyEntityOp op s).2.nextInode := by
  cases op with
  | media id name ts =>
    intro e he
    simp only [applyEntityOp, upsert_media_item, get_and_update_inode, upsert_x,
      List.mem_append, List.mem_filter, List.mem_singleton] at he ⊢
    rcases he with ⟨he, _⟩ | rfl
    · exact Nat.le_succ_of_le (h e he)
    · exact le_refl _
  | album id name ts =>
    intro e he
    simp only [applyEntityOp, upsert_album, get_and_update_inode, upsert_x,
      List.mem_append, List.mem_filter, List.mem_singleton] at he ⊢
    rcases he with ⟨he, _⟩ | rfl
    · exact Nat.le_succ_of_le (h e he)
    · exact le_refl _

/-- Invariant of an upsert run: the counter never decreases, stored inodes
stay at or below it, and every returned id lies strictly above the starting
counter and at or below the final one. -/
theorem runUpserts_invariant (ops : List EntityOp) : ∀ s : PhotoDbState,
    (∀ e ∈ s.entities, e.inode ≤ s.nextInode) →
    (∀ e ∈ (runUpserts ops s).1.entities, e.inode ≤ (runUpserts ops s).1.nextInode) ∧
    s.nextInode ≤ (runUpserts ops s).1.nextInode ∧
    (∀ n ∈ (runUpserts ops s).2, s.nextInode < n ∧ n ≤ (runUpserts ops s).1.nextInode) := by
  induction ops with
  | nil =>
    intro s h
    exact ⟨h, le_refl _, by simp [runUpserts]⟩
  | cons op ops ih =>
    intro s h
    obtain ⟨hc1, hc2⟩ := applyEntityOp_counter op s
    have hbound := applyEntityOp_inode_bound op s h
    obtain ⟨ih1, ih2, ih3⟩ := ih (applyEntityOp op s).2 hbound
    refine ⟨ih1, ?_, ?_⟩
    · simp only [runUpserts]
      omega
    · intro n hn
      simp only [runUpserts, List.mem_cons] at hn
      rcases hn with rfl | hn
      · refine ⟨by omega, ?_⟩
        simp only [runUpserts]
        omega
      · obtain ⟨h1, h2⟩ := ih3 n hn
        refine ⟨by omega, ?_⟩
        simp only [runUpserts]
        omega

/-- C2: starting from a fresh store, after any sequence of upserts the next
allocation increments the counter by exactly one and returns the new
value; that value is strictly greater than every previously returned
stable id, is at least 101 (above the reserved range 1-99 of the fixed
structural nodes), and differs from the inode of every record currently in
the store. -/
theorem stable_id_allocation_monotonic (pre : List EntityOp) (op : EntityOp) :
    (applyEntityOp op (runUpserts pre freshDb).1).2.nextInode
        = (runUpserts pre freshDb).1.nextInode + 1 ∧
    (applyEntityOp op (runUpserts pre freshDb).1).1
        = (runUpserts pre freshDb).1.nextInode + 1 ∧
    (∀ n ∈ (runUpserts pre freshDb).2, n < (applyEntityOp op (runUpserts pre freshDb).1).1) ∧
    101 ≤ (applyEntityOp op (runUpserts pre freshDb).1).1 ∧
    (∀ e ∈ (runUpserts pre freshDb).1.entities,
        e.inode ≠ (applyEntityOp op (runUpserts pre freshDb).1).1) := by
  have hfresh : ∀ e ∈ freshDb.entities, e.inode ≤ freshDb.nextInode := by
    intro e he
    simp [freshDb] at he
  obtain ⟨hinv1, hinv2, hinv3⟩ := runUpserts_invariant pre freshDb hfresh
  obtain ⟨hc1, hc2⟩ := applyEntityOp_counter op (runUpserts pre freshDb).1
  refine ⟨hc2, hc1, ?_, ?_, ?_⟩
  · intro n hn
    have := hinv3 n hn
    omega
  · have : freshDb.nextInode = 100 := rfl
    omega
  · intro e he
    have := hinv1 e he
    omega

/-!
Referential integrity of the membership table over every reachable store
state.
-/

/-- One mutating store call: an upsert of either kind, or a membership
upsert (which leaves the state unchanged when it fails). -/
inductive StoreOp where
  | media (id name : String) (ts : Int)
  | album (id name : String) (ts : Int)
  | inAlbum (album_id media_item_id : String)

/-- Apply one mutating call to the store. -/
def applyStoreOp : StoreOp → PhotoDbState → PhotoDbState
  | StoreOp.media id name ts, s => (upsert_media_item id name ts s).2
  | StoreOp.album id name ts, s => (upsert_album id name ts s).2
  | StoreOp.inAlbum a b, s =>
    match upsert_media_item_in_album a b s with
    | Except.ok s' => s'
    | Except.error _ => s

/-- Apply a sequence of mutating calls. -/
def runStoreOps : List StoreOp → PhotoDbState → PhotoDbState
  | [], s => s
  | op :: ops, s => runStoreOps ops (applyStoreOp op s)

/-- Every membership row references entity records present in the store. -/
def MembershipOk (s : PhotoDbState) : Prop :=
  ∀ p ∈ s.memberships, existsId p.1 s = true ∧ existsId p.2 s = true

/-- An upsert never removes a `google_id` from the store (a replaced row
keeps its id). -/
theorem existsId_upsert_x (g id : String) (t : MediaTypes) (name : String)
    (inode : Nat) (ts : Int) (s : PhotoDbState) (h : existsId g s = true) :
    existsId g (upsert_x id t name inode ts s) = true := by
  simp only [existsId, List.any_eq_true, upsert_x, List.mem_append,
    List.mem_filter, List.mem_singleton] at h ⊢
  obtain ⟨e, he, hg⟩ := h
  by_cases hid : e.google_id = id
  · refine ⟨⟨id, t, name, ts, inode⟩, Or.inr rfl, ?_⟩
    simp only [beq_iff_eq] at hg ⊢
    rw [← hid, hg]
  · refine ⟨e, Or.inl ⟨he, ?_⟩, hg⟩
    simp [hid]

/-- One mutating call preserves the membership invariant. -/
theorem applyStoreOp_membership (op : StoreOp) (s : PhotoDbState)
    (h : MembershipOk s) : MembershipOk (applyStoreOp op s) := by
  cases op with
  | media id name ts =>
    intro p hp
    have hmem : p ∈ s.memberships := hp
    obtain ⟨h1, h2⟩ := h p hmem
    exact ⟨existsId_upsert_x p.1 id MediaTypes.mediaItem name _ ts s h1,
      existsId_upsert_x p.2 id MediaTypes.mediaItem name _ ts s h2⟩
  | album id name ts =>
    intro p hp
    have hmem : p ∈ s.memberships := hp
    obtain ⟨h1, h2⟩ := h p hmem
    exact ⟨existsId_upsert_x p.1 id MediaTypes.album name _ ts s h1,
      existsId_upsert_x p.2 id MediaTypes.album name _ ts s h2⟩
  | inAlbum a b =>
    intro p hp
    simp only [applyStoreOp, upsert_media_item_in_album] at hp ⊢
    by_cases hex : existsId a s && existsId b s
    · rw [if_pos hex] at hp ⊢
      simp only [Bool.and_eq_true] at hex
      simp only [] at hp
      by_cases hin : (a, b) ∈ s.memberships
      · rw [if_pos hin] at hp ⊢
        exact h p hp
      · rw [if_neg hin] at hp ⊢
        rcases List.mem_append.mp hp with hp' | hp'
        · exact h p hp'
        · rcases List.mem_singleton.mp hp' with rfl
          exact ⟨hex.1, hex.2⟩
    · rw [if_neg hex] at hp ⊢
      exact h p hp

/-- The membership invariant holds along any run. -/
theorem runStoreOps_membership (ops : List StoreOp) : ∀ s : PhotoDbState,
    MembershipOk s → MembershipOk (runStoreOps ops s) := by
  induction ops with
  | nil => intro s h; exact h
  | cons op ops ih =>
    intro s h
    exact ih (applyStoreOp op s) (applyStoreOp_membership op s h)

/-- C3: `upsert_media_item_in_album` succeeds exactly when both remote ids
already have entity records (a missing side is an error, enforced by the
foreign keys), and along every run from a fresh store no membership row
ever references a missing entity record. -/
theorem membership_referential_integrity (a b : String) (s : PhotoDbState)
    (ops : List StoreOp) :
    (exceptOk (upsert_media_item_in_album a b s) = true
        ↔ (existsId a s = true ∧ existsId b s = true)) ∧
    MembershipOk (runStoreOps ops freshDb) := by
  constructor
  · unfold upsert_media_item_in_album
    by_cases hex : existsId a s && existsId b s
    · rw [if_pos hex]
      simp only [Bool.and_eq_true] at hex
      simp [exceptOk, hex]
    · rw [if_neg hex]
      simp only [Bool.and_eq_true] at hex
      simp [exceptOk]
      intro h1
      cases hb : existsId b s with
      | false => rfl
      | true => exact absurd ⟨h1, hb⟩ hex
  · apply runStoreOps_membership
    intro p hp
    simp [freshDb] at hp

/-- C5: for an open file handle, `read` returns exactly the byte slice
`[offset, min(offset+size, len))` of the buffered content; an offset at or
beyond the buffer length gives an empty (non-error) result; and an inode
that does not match the handle entry is an error. -/
theorem read_returns_exact_slice (fs : FsState) (ino fh offset size : Nat)
    (entry : ReadFhEntry) (hget : fs.open_files.get_fh fh = some entry) :
    (entry.inode = ino →
       fs_read fs ino fh offset size =
         Except.ok ((entry.data.drop offset).take
           (min (offset + size) entry.data.length - offset)) ∧
       (entry.data.length ≤ offset →
          fs_read fs ino fh offset size = Except.ok [])) ∧
    (entry.inode ≠ ino →
       fs_read fs ino fh offset size = Except.error FuseError.functionNotImplemented) := by
  constructor
  · intro hino
    have hne : ¬(entry.inode ≠ ino) := not_ne_iff.mpr hino
    constructor
    · unfold fs_read
      rw [hget]
      simp only []
      rw [if_neg hne]
      by_cases hlen : entry.data.length ≤ offset
      · rw [if_pos hlen]
        rw [List.drop_eq_nil_of_le hlen]
        simp
      · rw [if_neg hlen]
    · intro hlen
      unfold fs_read
      rw [hget]
      simp only []
      rw [if_neg hne, if_pos hlen]
  · intro hne
    unfold fs_read
    rw [hget]
    simp only []
    rw [if_pos hne]

/-- The filesystem state after `open` of the diagnostic file on a fresh
filesystem: handle 0 buffers the 13 diagnostic bytes. -/
def helloOpenFs : FsState :=
  ⟨freshDb, [], ⟨[(0, ⟨FIXED_INODE_HELLO_WORLD, HELLO_TXT_CONTENT⟩)]⟩, ⟨[]⟩⟩

/-- C5 witness: on the handle obtained by opening `hello.txt`, a read of
`[0, 13)` returns all 13 bytes, a read at offset 13 returns empty bytes,
and a read against the wrong inode is an error. -/
theorem read_returns_exact_slice_witness :
    fs_open freshFs FIXED_INODE_HELLO_WORLD = Except.ok (0, helloOpenFs) ∧
    fs_read helloOpenFs FIXED_INODE_HELLO_WORLD 0 0 13 =
      Except.ok ((HELLO_TXT_CONTENT.drop 0).take
        (min (0 + 13) HELLO_TXT_CONTENT.length - 0)) ∧
    fs_read helloOpenFs FIXED_INODE_HELLO_WORLD 0 13 1 = Except.ok [] ∧
    fs_read helloOpenFs (FIXED_INODE_HELLO_WORLD + 1) 0 0 5 =
      Except.error FuseError.functionNotImplemented :=
  ⟨rfl,
   ((read_returns_exact_slice helloOpenFs FIXED_INODE_HELLO_WORLD 0 0 13
      ⟨FIXED_INODE_HELLO_WORLD, HELLO_TXT_CONTENT⟩ (by decide)).1 rfl).1,
   rfl, rfl⟩

/-- The opposite entity kind. -/
def otherKind : MediaTypes → MediaTypes
  | MediaTypes.album => MediaTypes.mediaItem
  | MediaTypes.mediaItem => MediaTypes.album

/-- `upsert_entity` of the given kind: `upsert_media_item` or `upsert_album`. -/
def upsertEntity (k : MediaTypes) (id name : String) (ts : Int)
    (s : PhotoDbState) : Nat × PhotoDbState :=
  match k with
  | MediaTypes.mediaItem => upsert_media_item id name ts s
  | MediaTypes.album => upsert_album id name ts s

/-- Both upsert flavours are the counter bump followed by `upsert_x` of
their kind. -/
theorem upsertEntity_eq (k : MediaTypes) (id name : String) (ts : Int) (s : PhotoDbState) :
    upsertEntity k id name ts s
      = (s.nextInode + 1,
         upsert_x id k name (s.nextInode + 1) ts { s with nextInode := s.nextInode + 1 }) := by
  cases k <;> simp [upsertEntity, upsert_media_item, upsert_album, get_and_update_inode]

/-- C8: `oldest_sync_timestamp` for a kind is `none` on a fresh store;
after inserting two records of that kind with timestamps `t1 < t2` it is
`t1`; after re-upserting the `t1` record with `t3 > t2` it is `t2`, the new
minimum; and a record of the other kind (under a fresh remote id) never
affects the result. -/
theorem oldest_sync_timestamp_selection (k : MediaTypes) (g1 g2 g3 n1 n2 n3 : String)
    (t1 t2 t3 t0 : Int) (hg12 : g1 ≠ g2) (hg31 : g3 ≠ g1) (hg32 : g3 ≠ g2)
    (h12 : t1 < t2) (h23 : t2 < t3) :
    last_updated_x k freshDb = none ∧
    last_updated_x k (upsertEntity k g2 n2 t2 (upsertEntity k g1 n1 t1 freshDb).2).2
      = some t1 ∧
    last_updated_x k (upsertEntity k g1 n1 t3
        (upsertEntity k g2 n2 t2 (upsertEntity k g1 n1 t1 freshDb).2).2).2
      = some t2 ∧
    last_updated_x k (upsertEntity (otherKind k) g3 n3 t0
        (upsertEntity k g2 n2 t2 (upsertEntity k g1 n1 t1 freshDb).2).2).2
      = some t1 := by
  have hne12 : (g1 != g2) = true := bne_iff_ne.mpr hg12
  have hne21 : (g2 != g1) = true := bne_iff_ne.mpr (Ne.symm hg12)
  have hne13 : (g1 != g3) = true := bne_iff_ne.mpr (Ne.symm hg31)
  have hne23 : (g2 != g3) = true := bne_iff_ne.mpr (Ne.symm hg32)
  have hok : otherKind k ≠ k := by cases k <;> simp [otherKind]
  refine ⟨rfl, ?_, ?_, ?_⟩
  · simp [upsertEntity_eq, upsert_x, freshDb, last_updated_x, List.filter, hne12, minFold]
    omega
  · simp [upsertEntity_eq, upsert_x, freshDb, last_updated_x, List.filter, hne12, hne21, minFold]
    omega
  · simp [upsertEntity_eq, upsert_x, freshDb, last_updated_x, List.filter, hne12,
      hne13, hne23, hok, minFold]
    omega

/-- C8 witness: the selection scenario at concrete values (`k` = album,
timestamps 0 < 1 < 2, other-kind record with timestamp -5). -/
theorem oldest_sync_timestamp_selection_witness :
    last_updated_x MediaTypes.album freshDb = none ∧
    last_updated_x MediaTypes.album
        (upsertEntity MediaTypes.album "g2" "n2" 1
          (upsertEntity MediaTypes.album "g1" "n1" 0 freshDb).2).2 = some 0 ∧
    last_updated_x MediaTypes.album
        (upsertEntity MediaTypes.album "g1" "n1" 2
          (upsertEntity MediaTypes.album "g2" "n2" 1
            (upsertEntity MediaTypes.album "g1" "n1" 0 freshDb).2).2).2 = some 1 ∧
    last_updated_x MediaTypes.album
        (upsertEntity (otherKind MediaTypes.album) "g3" "n3" (-5)
          (upsertEntity MediaTypes.album "g2" "n2" 1
            (upsertEntity MediaTypes.album "g1" "n1" 0 freshDb).2).2).2 = some 0 :=
  oldest_sync_timestamp_selection MediaTypes.album "g1" "g2" "g3" "n1" "n2" "n3"
    0 1 2 (-5) (by decide) (by decide) (by decide) (by decide) (by decide)

/-- C4: under an album directory, `lookup` succeeds only for a media item
of that name in that album's membership set; when no media item of that
name is a member, lookup under the album is not-found even when the name
exists in the global media list, where lookup under the fixed `media/`
directory succeeds. -/
theorem lookup_scoped_to_album_membership (s : PhotoDbState) (parent : Nat)
    (a : Entity) (name : String)
    (h1 : parent ≠ FIXED_INODE_ROOT) (h2 : parent ≠ FIXED_INODE_ALBUMS)
    (h3 : parent ≠ FIXED_INODE_MEDIA)
    (ha : album_by_inode parent s = some a) :
    (∀ resp, fs_lookup (mkFs s) parent name = Except.ok resp →
       ∃ mi ∈ s.entities, mi.media_type = MediaTypes.mediaItem ∧ mi.name = name ∧
         (a.google_id, mi.google_id) ∈ s.memberships ∧
         resp = ⟨mi.inode, DEFAULT_MEDIA_ITEM_SIZE, FileType.regularFile⟩) ∧
    ((∀ mi ∈ s.entities, mi.media_type = MediaTypes.mediaItem → mi.name = name →
        (a.google_id, mi.google_id) ∉ s.memberships) →
      fs_lookup (mkFs s) parent name = Except.error FuseError.functionNotImplemented) ∧
    (∀ m, media_item_by_name name s = some m →
      fs_lookup (mkFs s) FIXED_INODE_MEDIA name
        = Except.ok ⟨m.inode, DEFAULT_MEDIA_ITEM_SIZE, FileType.regularFile⟩) := by
  have hlk : fs_lookup (mkFs s) parent name
      = lookup_media name (DbFilter.byAlbum a.google_id) s := by
    unfold fs_lookup
    rw [if_neg h1, if_neg h2, if_neg h3]
    show (match album_by_inode parent s with
      | some album => lookup_media name (DbFilter.byAlbum album.google_id) s
      | none => Except.error FuseError.functionNotImplemented) = _
    rw [ha]
  have hred : media_item_by_name_filtered name (DbFilter.byAlbum a.google_id) s
      = s.entities.find? (fun e =>
          e.media_type = MediaTypes.mediaItem && e.name == name
            && decide ((a.google_id, e.google_id) ∈ s.memberships)) := rfl
  refine ⟨?_, ?_, ?_⟩
  · intro resp hresp
    rw [hlk] at hresp
    unfold lookup_media at hresp
    rw [hred] at hresp
    cases hfind : s.entities.find? (fun e =>
        e.media_type = MediaTypes.mediaItem && e.name == name
          && decide ((a.google_id, e.google_id) ∈ s.memberships)) with
    | none =>
      rw [hfind] at hresp
      cases hresp
    | some mi =>
      rw [hfind] at hresp
      have hmem := List.mem_of_find?_eq_some hfind
      have hpred := List.find?_some hfind
      simp only [Bool.and_eq_true, beq_iff_eq, decide_eq_true_eq] at hpred
      obtain ⟨⟨hmt, hnm⟩, hms⟩ := hpred
      refine ⟨mi, hmem, hmt, hnm, hms, ?_⟩
      cases hresp
      rfl
  · intro hnone
    rw [hlk]
    unfold lookup_media
    rw [hred]
    have hfind : s.entities.find? (fun e =>
        e.media_type = MediaTypes.mediaItem && e.name == name
          && decide ((a.google_id, e.google_id) ∈ s.memberships)) = none := by
      rw [List.find?_eq_none]
      intro e he
      simp only [Bool.and_eq_true, beq_iff_eq, decide_eq_true_eq, not_and]
      intro hAB
      exact hnone e he hAB.1 hAB.2
    rw [hfind]
  · intro m hm
    unfold fs_lookup
    rw [if_neg (by decide : ¬ (FIXED_INODE_MEDIA = FIXED_INODE_ROOT)),
      if_neg (by decide : ¬ (FIXED_INODE_MEDIA = FIXED_INODE_ALBUMS)),
      if_pos rfl]
    unfold lookup_media
    rw [show media_item_by_name_filtered name DbFilter.noFilter (mkFs s).db
        = media_item_by_name name s from rfl, hm]

/-- The store of end-to-end scenario B: media item `"G2"` named
`"Photo1.jpg"` (inode 101), album `"G1"` named `"Album1"` (inode 102), and
the membership row linking them. -/
def exampleDbState : PhotoDbState :=
  ⟨[⟨"G2", MediaTypes.mediaItem, "Photo1.jpg", 0, 101⟩,
    ⟨"G1", MediaTypes.album, "Album1", 0, 102⟩],
   [("G1", "G2")], 102⟩

/-- C4 witness: scenario B.  The example store is reachable by the three
upserts; the album lists exactly `"Photo1.jpg"`; lookup of `"Photo1.jpg"`
under the album and under `media/` succeeds; and, by the theorem, lookup of
`"Photo2.jpg"` under the album is not-found. -/
theorem lookup_scoped_to_album_membership_witness :
    runStoreOps [StoreOp.media "G2" "Photo1.jpg" 0, StoreOp.album "G1" "Album1" 0,
        StoreOp.inAlbum "G1" "G2"] freshDb = exampleDbState ∧
    (media_items_in_album 102 exampleDbState).map (fun e => e.name) = ["Photo1.jpg"] ∧
    fs_lookup (mkFs exampleDbState) 102 "Photo1.jpg"
      = Except.ok ⟨101, DEFAULT_MEDIA_ITEM_SIZE, FileType.regularFile⟩ ∧
    fs_lookup (mkFs exampleDbState) FIXED_INODE_MEDIA "Photo1.jpg"
      = Except.ok ⟨101, DEFAULT_MEDIA_ITEM_SIZE, FileType.regularFile⟩ ∧
    fs_lookup (mkFs exampleDbState) 102 "Photo2.jpg"
      = Except.error FuseError.functionNotImplemented :=
  ⟨by decide, by decide, rfl, rfl,
   (lookup_scoped_to_album_membership exampleDbState 102
      ⟨"G1", MediaTypes.album, "Album1", 0, 102⟩ "Photo2.jpg"
      (by decide) (by decide) (by decide) (by decide)).2.1 (by decide)⟩

/-!
Deduplication-at-listing: the first-seen-name filter keeps, for each
display name, exactly the first entity of the (remote-id-ordered) listing.
-/

/-- Entries surviving the filter never carry a name from the seen set. -/
theorem dedupe_not_seen (k : FileType) (l : List Entity) : ∀ seen : List String,
    ∀ t ∈ dedupeEntries k l seen, t.2.2 ∉ seen := by
  induction l with
  | nil =>
    intro seen t ht
    cases ht
  | cons e rest ih =>
    intro seen t ht
    by_cases hs : e.name ∈ seen
    · simp only [dedupeEntries, if_pos hs] at ht
      exact ih seen t ht
    · simp only [dedupeEntries, if_neg hs] at ht
      rcases List.mem_cons.mp ht with rfl | ht'
      · exact hs
      · have := ih (e.name :: seen) t ht'
        intro hmem
        exact this (List.mem_cons_of_mem _ hmem)

/-- The names of the surviving entries are pairwise distinct. -/
theorem dedupe_names_nodup (k : FileType) (l : List Entity) : ∀ seen : List String,
    ((dedupeEntries k l seen).map (fun t => t.2.2)).Nodup := by
  induction l with
  | nil =>
    intro seen
    simp [dedupeEntries]
  | cons e rest ih =>
    intro seen
    by_cases hs : e.name ∈ seen
    · simp only [dedupeEntries, if_pos hs]
      exact ih seen
    · simp only [dedupeEntries, if_neg hs, List.map_cons, List.nodup_cons]
      constructor
      · intro hmem
        obtain ⟨t, ht, hname⟩ := List.mem_map.mp hmem
        have := dedupe_not_seen k rest (e.name :: seen) t ht
        exact this (hname ▸ List.mem_cons_self _ _)
      · exact ih (e.name :: seen)

/-- For a name outside the seen set, the surviving entry is exactly the
first listing element with that name. -/
theorem dedupe_find_first (k : FileType) (l : List Entity) : ∀ (seen : List String)
    (n : String), n ∉ seen →
    (dedupeEntries k l seen).find? (fun t => t.2.2 == n)
      = (l.find? (fun e => e.name == n)).map (fun e => (e.inode, k, e.name)) := by
  induction l with
  | nil =>
    intro seen n _
    rfl
  | cons e rest ih =>
    intro seen n hn
    by_cases hs : e.name ∈ seen
    · simp only [dedupeEntries, if_pos hs]
      have hb : (e.name == n) = false := by
        simp only [beq_eq_false_iff_ne, ne_eq]
        intro h
        exact hn (h ▸ hs)
      simp only [List.find?, hb]
      exact ih seen n hn
    · simp only [dedupeEntries, if_neg hs]
      by_cases he : e.name = n
      · have hb : (e.name == n) = true := by simp [he]
        simp only [List.find?, hb]
        rfl
      · have hb : (e.name == n) = false := by simp [he]
        simp only [List.find?, hb]
        apply ih (e.name :: seen) n
        intro hmem
        rcases List.mem_cons.mp hmem with rfl | hmem'
        · exact he rfl
        · exact hn hmem'

/-- Listings are in ascending remote-id order. -/
theorem sortByGid_sorted (l : List Entity) :
    List.Pairwise (fun x y : Entity => x.google_id ≤ y.google_id) (sortByGid l) := by
  haveI : IsTotal Entity (fun x y : Entity => x.google_id ≤ y.google_id) :=
    ⟨fun a b => le_total a.google_id b.google_id⟩
  haveI : IsTrans Entity (fun x y : Entity => x.google_id ≤ y.google_id) :=
    ⟨fun a b c hab hbc => le_trans hab hbc⟩
  exact List.sorted_insertionSort _ l

/-- The dedup contract of one materialized listing `es` against its store
listing `L`: past the fixed "." and ".." entries, names are pairwise
distinct, and for every name the surviving entry is exactly the first
element of `L` carrying it (so later duplicates are dropped and the
first-encountered entity is kept). -/
def DedupProp (k : FileType) (es : List DirEntry) (L : List Entity) : Prop :=
  ((es.drop 2).map (fun t => t.2.2)).Nodup ∧
  ∀ n : String, (es.drop 2).find? (fun t => t.2.2 == n)
      = (L.find? (fun e => e.name == n)).map (fun e => (e.inode, k, e.name))

/-- The `albums/` listing past "." and ".." is the deduplicated store
listing. -/
theorem opendir_entries_albums_drop (s : PhotoDbState) :
    (opendir_entries FIXED_INODE_ALBUMS none s).drop 2
      = dedupeEntries FileType.directory (albums s) [] := by
  simp [opendir_entries, FIXED_INODE_ALBUMS, FIXED_INODE_ROOT, FIXED_INODE_MEDIA]

/-- The `media/` listing past "." and ".." is the deduplicated store
listing. -/
theorem opendir_entries_media_drop (s : PhotoDbState) :
    (opendir_entries FIXED_INODE_MEDIA none s).drop 2
      = dedupeEntries FileType.regularFile (media_items s) [] := by
  simp [opendir_entries, FIXED_INODE_ALBUMS, FIXED_INODE_ROOT, FIXED_INODE_MEDIA]

/-- An album directory's listing past "." and ".." is the deduplicated
membership listing. -/
theorem opendir_entries_album_drop (s : PhotoDbState) (ino : Nat) (a : Entity)
    (h1 : ino ≠ FIXED_INODE_ROOT) (h2 : ino ≠ FIXED_INODE_ALBUMS)
    (h3 : ino ≠ FIXED_INODE_MEDIA) :
    (opendir_entries ino (some a) s).drop 2
      = dedupeEntries FileType.regularFile (media_items_in_album ino s) [] := by
  rw [opendir_entries, if_neg h1, if_neg h2, if_neg h3,
    if_pos (by simp : (some a).isSome = true)]
  rfl

/-- C9 (amended): when `opendir` materializes `albums/`, `media/`, or an
album directory, every store entry whose display name equals the display
name of a store entry already placed earlier in that listing is dropped —
the first-encountered entity in the store's ascending remote-id order is
kept — while the fixed "." and ".." entries take no part in the dedup set;
and dropping duplicates never makes `opendir`, or a `readdir` on the
resulting handle, fail. -/
theorem opendir_listing_dedup (s : PhotoDbState) (remote : List (String × List Nat))
    (ofh : OpenFileHandles ReadFhEntry) (odh : OpenFileHandles ReadDirFhEntry)
    (ino : Nat) (a : Entity)
    (h1 : ino ≠ FIXED_INODE_ROOT) (h2 : ino ≠ FIXED_INODE_ALBUMS)
    (h3 : ino ≠ FIXED_INODE_MEDIA)
    (ha : album_by_inode ino s = some a) :
    DedupProp FileType.directory (opendir_entries FIXED_INODE_ALBUMS none s) (albums s) ∧
    DedupProp FileType.regularFile (opendir_entries FIXED_INODE_MEDIA none s) (media_items s) ∧
    DedupProp FileType.regularFile (opendir_entries ino (some a) s)
      (media_items_in_album ino s) ∧
    List.Pairwise (fun x y : Entity => x.google_id ≤ y.google_id) (albums s) ∧
    List.Pairwise (fun x y : Entity => x.google_id ≤ y.google_id) (media_items s) ∧
    List.Pairwise (fun x y : Entity => x.google_id ≤ y.google_id)
      (media_items_in_album ino s) ∧
    exceptOk (fs_opendir ⟨s, remote, ofh, odh⟩ FIXED_INODE_ALBUMS) = true ∧
    exceptOk (fs_opendir ⟨s, remote, ofh, odh⟩ FIXED_INODE_MEDIA) = true ∧
    exceptOk (fs_opendir ⟨s, remote, ofh, odh⟩ ino) = true ∧
    (∀ fh fs', fs_opendir ⟨s, remote, ofh, odh⟩ ino = Except.ok (fh, fs') →
        exceptOk (fs_readdir fs' ino fh 0) = true) := by
  have hno : ¬ (ino = FIXED_INODE_ROOT ∨ ino = FIXED_INODE_MEDIA ∨ ino = FIXED_INODE_ALBUMS) := by
    intro h
    rcases h with h | h | h
    · exact h1 h
    · exact h3 h
    · exact h2 h
  have hcheck : opendir_album_check ⟨s, remote, ofh, odh⟩ ino = Except.ok (some a) := by
    unfold opendir_album_check
    rw [if_neg hno]
    show (match album_by_inode ino s with
      | none => Except.error FuseError.functionNotImplemented
      | some album => Except.ok (some album)) = _
    rw [ha]
  refine ⟨?_, ?_, ?_, sortByGid_sorted _, sortByGid_sorted _, ?_, rfl, rfl, ?_, ?_⟩
  · rw [DedupProp, opendir_entries_albums_drop]
    exact ⟨dedupe_names_nodup _ _ _,
      fun n => dedupe_find_first _ _ [] n (List.not_mem_nil n)⟩
  · rw [DedupProp, opendir_entries_media_drop]
    exact ⟨dedupe_names_nodup _ _ _,
      fun n => dedupe_find_first _ _ [] n (List.not_mem_nil n)⟩
  · rw [DedupProp, opendir_entries_album_drop s ino a h1 h2 h3]
    exact ⟨dedupe_names_nodup _ _ _,
      fun n => dedupe_find_first _ _ [] n (List.not_mem_nil n)⟩
  · unfold media_items_in_album
    cases s.entities.find? (fun e => e.inode == ino) with
    | none => exact List.Pairwise.nil
    | some x => exact sortByGid_sorted _
  · unfold fs_opendir
    rw [hcheck]
    rfl
  · intro fh fs' h
    unfold fs_opendir at h
    rw [hcheck] at h
    simp only [Except.ok.injEq, Prod.mk.injEq] at h
    obtain ⟨hfh, hfs⟩ := h
    subst hfh
    subst hfs
    simp [fs_readdir, OpenFileHandles.get_fh, OpenFileHandles.open_fh, List.find?, exceptOk]

/-- C9 counterexample: after upserting an album whose display name is ".",
the `albums/` listing contains two entries named "." — the album entry's
display name equals the display name of the "." entry already placed
earlier in the same listing, yet it is not dropped (the dedup set covers
only store entries, not the fixed "." and ".." entries). -/
theorem opendir_dot_album_duplicate_name :
    (opendir_entries FIXED_INODE_ALBUMS none
        (runStoreOps [StoreOp.album "A1" "." 0] freshDb)).map (fun t => t.2.2)
      = [".", "..", "."] ∧
    ¬ ((opendir_entries FIXED_INODE_ALBUMS none
        (runStoreOps [StoreOp.album "A1" "." 0] freshDb)).map (fun t => t.2.2)).Nodup :=
  ⟨by decide, by decide⟩

/-- C9 witness: on scenario B's store, the album directory's materialized
listing satisfies the dedup contract against its membership listing, and
`opendir` of that album succeeds. -/
theorem opendir_listing_dedup_witness :
    DedupProp FileType.regularFile
      (opendir_entries 102 (some ⟨"G1", MediaTypes.album, "Album1", 0, 102⟩) exampleDbState)
      (media_items_in_album 102 exampleDbState) ∧
    exceptOk (fs_opendir ⟨exampleDbState, [], ⟨[]⟩, ⟨[]⟩⟩ 102) = true :=
  ⟨(opendir_listing_dedup exampleDbState [] ⟨[]⟩ ⟨[]⟩ 102
      ⟨"G1", MediaTypes.album, "Album1", 0, 102⟩
      (by decide) (by decide) (by decide) (by decide)).2.2.1,
   (opendir_listing_dedup exampleDbState [] ⟨[]⟩ ⟨[]⟩ 102
      ⟨"G1", MediaTypes.album, "Album1", 0, 102⟩
      (by decide) (by decide) (by decide) (by decide)).2.2.2.2.2.2.2.2.1⟩

/-- The filesystem state after `opendir` of the root on a fresh
filesystem: handle 0 holds the four root entries. -/
def rootDirFs : FsState :=
  ⟨freshDb, [], ⟨[]⟩,
   ⟨[(0, ⟨FIXED_INODE_ROOT, opendir_entries FIXED_INODE_ROOT none freshDb⟩)]⟩⟩

/-- C6 (the code at the failing input): `readdir(handle, 0)` returns the
whole root listing in order, tagging the entry at index `i` with offset
`i + 1` — so "." carries offset 1 and the entries that follow it are
"albums", "media", "hello.txt" — but `readdir(handle, 1)` skips
`offset + 1 = 2` entries and returns only "media" and "hello.txt",
dropping "albums". -/
theorem readdir_resume_skips_an_entry :
    fs_opendir freshFs FIXED_INODE_ROOT = Except.ok (0, rootDirFs) ∧
    fs_readdir rootDirFs FIXED_INODE_ROOT 0 0
      = Except.ok [⟨1, 1, FileType.directory, "."⟩,
          ⟨2, 2, FileType.directory, "albums"⟩,
          ⟨3, 3, FileType.directory, "media"⟩,
          ⟨4, 4, FileType.regularFile, "hello.txt"⟩] ∧
    fs_readdir rootDirFs FIXED_INODE_ROOT 0 1
      = Except.ok [⟨3, 3, FileType.directory, "media"⟩,
          ⟨4, 4, FileType.regularFile, "hello.txt"⟩] :=
  ⟨rfl, rfl, rfl⟩
